import Mathlib

/-!
Shallow embedding of the automated data-quality profiler
(`src/data_profiler.py`, class `DataProfiler`) of the nyc-taxi-analysis
repository, together with proofs checking the statements C1-C10 of its
specification against the code.

Modelling conventions, chosen once and used throughout:

* A pandas column is a `List (Option v)`: `none` is a missing entry (NaN/NaT).
* Exact rational arithmetic (`ℚ`) stands for float arithmetic; the float value
  NaN, which pandas produces for statistics of an empty selection, is modelled
  as `Option.none` (pandas reductions skip missing entries, and `x < c` is
  `False` whenever `x` or `c` is NaN - mirrored by explicit `Option` matches).
  numpy divisions (`isnull().sum() / len(col_data)`) yield NaN on a
  zero-length column, but the one plain-Python integer division of the source
  (the outlier percentage, `len(outliers) / len(col_data)`) raises
  `ZeroDivisionError` there: the fallible embeddings `profileColumnE` and
  `generate_profileE` surface exactly that error path, while the total
  functions model the executions on which the source returns.
* The source's `profile['std']` is `col_data.std()`, the square root of the
  variance with denominator `n - 1`.  Square roots are irrational, so the
  profile *stores* the radicand in the field `var` and the noncomputable
  accessors `NumericStats.std`, `suggested_min`, `suggested_max` interpret it
  through `Real.sqrt`; this representation determines the stored floats
  injectively (mean and variance recover `mean ± 3·std`), so equality and
  inequality of embedded profiles coincide with equality of the Python dicts.
* Rule dictionaries are embedded as `QRule` with the payload that determines
  each dict: the description string of `not_null` shows the null percentage
  rounded to two decimal places (Python `f"{p:.2f}"`), the `warn_zeros`
  description shows the zero count, and `value_range` stores the bound data;
  integer and two-decimal rendering are injective, so rule equality in the
  embedding again coincides with dict equality in Python.
* Python dicts keyed by column name keep insertion order; they are embedded as
  association lists with `upsert` (overwrite in place, append when new).
* `print` calls are pure output and are not modelled.
-/

set_option allowUnsafeReducibility true
attribute [local semireducible] Rat.mul Rat.add Rat.sub Rat.inv
set_option maxRecDepth 8000

namespace TaxiProfiler

/-! ## Columns -/

/-- Typed column data: pandas dispatches on the dtype of the column
(`is_numeric_dtype` / `is_datetime64_any_dtype` / otherwise), so the embedding
tags each column with its logical kind. `none` entries are missing values. -/
inductive ColData where
  | numeric (vals : List (Option ℚ))
  | datetime (vals : List (Option ℤ))
  | categorical (vals : List (Option String))
deriving DecidableEq, Repr

/-- Number of missing entries, `col_data.isnull().sum()`. -/
def nullCountL {α : Type} (vals : List (Option α)) : ℕ :=
  vals.countP (·.isNone)

/-- Sequence of the non-missing entries in order (what pandas reductions with
`skipna` and `dropna()` operate on). -/
def nonNull {α : Type} (vals : List (Option α)) : List α :=
  vals.filterMap id

/-- Null percentage, `(col_data.isnull().sum() / len(col_data)) * 100`; on a
zero-length column numpy yields NaN (modelled `none`) rather than raising. -/
def nullPct {α : Type} (vals : List (Option α)) : Option ℚ :=
  if vals.length = 0 then none
  else some ((nullCountL vals / vals.length : ℚ) * 100)

/-- Distinct non-missing value count, `col_data.nunique()`. -/
def uniqueCountL {α : Type} [DecidableEq α] (vals : List (Option α)) : ℕ :=
  (nonNull vals).dedup.length

/-- Length of the column, `len(col_data)`. -/
def ColData.length : ColData → ℕ
  | .numeric vals => vals.length
  | .datetime vals => vals.length
  | .categorical vals => vals.length

/-- Null count of a column of any kind. -/
def ColData.nullCount : ColData → ℕ
  | .numeric vals => nullCountL vals
  | .datetime vals => nullCountL vals
  | .categorical vals => nullCountL vals

/-- Count of non-missing entries of a column of any kind. -/
def ColData.nonNullCount : ColData → ℕ
  | .numeric vals => (nonNull vals).length
  | .datetime vals => (nonNull vals).length
  | .categorical vals => (nonNull vals).length

/-! ## Numeric statistics -/

/-- Minimum of the non-missing values, `col_data.min()`: NaN (`none`) when
there are none. -/
def listMin? (l : List ℚ) : Option ℚ :=
  match l with
  | [] => none
  | h :: t => some (t.foldl min h)

/-- Maximum of the non-missing values, `col_data.max()`. -/
def listMax? (l : List ℚ) : Option ℚ :=
  match l with
  | [] => none
  | h :: t => some (t.foldl max h)

/-- Arithmetic mean of the non-missing values, `col_data.mean()`. -/
def meanQ? (l : List ℚ) : Option ℚ :=
  if l.length = 0 then none else some (l.sum / l.length)

/-- Variance with denominator `n - 1`, the square of the source's
`col_data.std()` (pandas default `ddof=1`); NaN (`none`) when fewer than two
non-missing values exist. -/
def sampleVar? (l : List ℚ) : Option ℚ :=
  if l.length < 2 then none
  else some (((l.map (fun x => (x - l.sum / l.length) ^ 2)).sum) / ((l.length : ℚ) - 1))

/-- Quantile with linear interpolation on the sorted non-missing values,
`col_data.quantile(q)` (also `median()` at `q = 1/2`): with `h = q·(n-1)`,
interpolate between the entries at `⌊h⌋` and `⌊h⌋ + 1`. -/
def quantileLin (q : ℚ) (l : List ℚ) : Option ℚ :=
  if l.length = 0 then none
  else
    let s := l.insertionSort (· ≤ ·)
    let h : ℚ := q * ((l.length : ℚ) - 1)
    let i : ℕ := (⌊h⌋).toNat
    let lo := s.getD i 0
    let hi := s.getD (i + 1) lo
    some (lo + (h - (i : ℚ)) * (hi - lo))

/-- Exception the source can raise while profiling: the outlier percentage
`(len(outliers) / len(col_data)) * 100` divides plain Python ints and raises
on a zero-length column (every other division in the profiler is a numpy
division, which yields NaN instead). -/
inductive PyError where
  | zeroDivisionError
deriving DecidableEq, Repr

/-- The outlier-percentage computation as the source performs it:
`(len(outliers) / len(col_data)) * 100` over plain Python ints, raising
`ZeroDivisionError` when the column has length zero. -/
def outlierPercentageE (outliers totalLen : ℕ) : Except PyError ℚ :=
  if totalLen = 0 then Except.error PyError.zeroDivisionError
  else Except.ok ((outliers / totalLen : ℚ) * 100)

/-- Numeric block of a column profile, the keys the source adds under
`if pd.api.types.is_numeric_dtype(col_data)`. The field `var` is the square of
the source's `'std'` entry (see the header comment); `'suggested_min'` and
`'suggested_max'` are recovered from `mean` and `var` by the accessors
below. -/
structure NumericStats where
  min : Option ℚ
  max : Option ℚ
  mean : Option ℚ
  median : Option ℚ
  var : Option ℚ
  q1 : Option ℚ
  q3 : Option ℚ
  outlier_count : ℕ
  outlier_percentage : Option ℚ
deriving DecidableEq, Repr

/-- Computes the numeric block from the non-missing values `nn` and the full
column length (the source's `len(col_data)`, used for the outlier
percentage). Outlier selection `col_data[(col_data < lb) | (col_data > ub)]`
keeps nothing when the bounds are NaN, since every float comparison with NaN
is false. The outlier percentage stores the successful value of
`outlierPercentageE`; on a zero-length column that division raises in the
source, so this total function is only exposed through `profileColumnE`,
which propagates the error instead of returning the block. -/
def numericStats (nn : List ℚ) (totalLen : ℕ) : NumericStats :=
  let q1 := quantileLin (1/4) nn
  let q3 := quantileLin (3/4) nn
  let oc : ℕ :=
    match q1, q3 with
    | some a, some b =>
        let iqr := b - a
        let lb := a - 3/2 * iqr
        let ub := b + 3/2 * iqr
        nn.countP (fun v => decide (v < lb ∨ ub < v))
    | _, _ => 0
  { min := listMin? nn
    max := listMax? nn
    mean := meanQ? nn
    median := quantileLin (1/2) nn
    var := sampleVar? nn
    q1 := q1
    q3 := q3
    outlier_count := oc
    outlier_percentage := (outlierPercentageE oc totalLen).toOption }

/-- Standard deviation reported by the source (`profile['std']`), interpreted
from the stored radicand. -/
noncomputable def NumericStats.std (s : NumericStats) : Option ℝ :=
  s.var.map (fun v => Real.sqrt (v : ℝ))

/-- Lower suggested bound, `profile['mean'] - 3 * profile['std']`
(NaN-propagating). -/
noncomputable def NumericStats.suggested_min (s : NumericStats) : Option ℝ :=
  match s.mean, s.var with
  | some m, some v => some ((m : ℝ) - 3 * Real.sqrt (v : ℝ))
  | _, _ => none

/-- Upper suggested bound, `profile['mean'] + 3 * profile['std']`. -/
noncomputable def NumericStats.suggested_max (s : NumericStats) : Option ℝ :=
  match s.mean, s.var with
  | some m, some v => some ((m : ℝ) + 3 * Real.sqrt (v : ℝ))
  | _, _ => none

/-! ## Categorical statistics: `value_counts().head(5).to_dict()` -/

/-- Auxiliary recursion for `firstOccs`: keeps the first occurrence of every
value, skipping values already seen. -/
def firstOccsAux (seen : List String) : List String → List String
  | [] => []
  | v :: t => if v ∈ seen then firstOccsAux seen t else v :: firstOccsAux (v :: seen) t

/-- Distinct values of a list in order of first occurrence. -/
def firstOccs (l : List String) : List String :=
  firstOccsAux [] l

/-- Model of the grouping step of `value_counts()`: each distinct value, in
first-occurrence order, with its total occurrence count. -/
def firstOccCounts (l : List String) : List (String × ℕ) :=
  (firstOccs l).map (fun v => (v, l.count v))

/-- Order used to model the descending stable sort of `value_counts()`: larger
count first, and at equal counts the entry that appears earlier in the grouped
list (that is, whose value occurs earlier in the column) first. The first
component is the position in the grouped list. -/
def cmpCount (a b : ℕ × String × ℕ) : Prop :=
  b.2.2 < a.2.2 ∨ (a.2.2 = b.2.2 ∧ a.1 ≤ b.1)

instance : DecidableRel cmpCount := fun a b => by
  unfold cmpCount; infer_instance

instance : IsTotal (ℕ × String × ℕ) cmpCount := by
  constructor
  intro a b
  unfold cmpCount
  omega

instance : IsTrans (ℕ × String × ℕ) cmpCount := by
  constructor
  intro a b c hab hbc
  unfold cmpCount at hab hbc ⊢
  omega

/-- Descending stable sort of the grouped counts, tagged with their positions:
the sorting phase of `value_counts()`. -/
def sortCounts (l : List (String × ℕ)) : List (ℕ × String × ℕ) :=
  l.enum.insertionSort cmpCount

/-- Model of `col_data.value_counts()`: occurrence counts of the non-missing
values, most frequent first, ties in first-occurrence order. -/
def valueCounts (l : List String) : List (String × ℕ) :=
  (sortCounts (firstOccCounts l)).map Prod.snd

/-- Model of `col_data.value_counts().head(n).to_dict()`; the source uses
`n = 5`. -/
def mostCommon (n : ℕ) (l : List String) : List (String × ℕ) :=
  (valueCounts l).take n

/-! ## Column profile -/

/-- Kind-specific block of a column profile: exactly the keys the dtype branch
of `_profile_column` adds, together with the `sample_values` list (typed per
kind). -/
inductive KindStats where
  | numeric (s : NumericStats) (sample : List ℚ)
  | datetime (min_date max_date : Option ℤ) (sample : List ℤ)
  | categorical (most_common : List (String × ℕ)) (sample : List String)
deriving DecidableEq, Repr

/-- Embedding of the dict built by `DataProfiler._profile_column`. -/
structure ColProfile where
  dtype : String
  null_count : ℕ
  null_percentage : Option ℚ
  unique_count : ℕ
  kstats : KindStats
deriving DecidableEq, Repr

/-- Numeric block of a profile, when the column was numeric (the source's
`'min' in profile` test). -/
def ColProfile.numeric? (p : ColProfile) : Option NumericStats :=
  match p.kstats with
  | .numeric s _ => some s
  | _ => none

/-- Outlier count of a profile, when the column was numeric. -/
def ColProfile.outlierCount? (p : ColProfile) : Option ℕ :=
  p.numeric?.map (·.outlier_count)

/-- Embedding of `DataProfiler._profile_column` on one column. -/
def profileColumn : ColData → ColProfile
  | .numeric vals =>
      { dtype := "float64"
        null_count := nullCountL vals
        null_percentage := nullPct vals
        unique_count := uniqueCountL vals
        kstats := .numeric (numericStats (nonNull vals) vals.length) ((nonNull vals).take 5) }
  | .datetime vals =>
      { dtype := "datetime64[ns]"
        null_count := nullCountL vals
        null_percentage := nullPct vals
        unique_count := uniqueCountL vals
        kstats := .datetime (nonNull vals).min? (nonNull vals).max?
          ((nonNull vals).take 5) }
  | .categorical vals =>
      { dtype := "object"
        null_count := nullCountL vals
        null_percentage := nullPct vals
        unique_count := uniqueCountL vals
        kstats := .categorical (mostCommon 5 (nonNull vals)) ((nonNull vals).take 5) }

/-- Fallible embedding of `DataProfiler._profile_column`: on a numeric column
the outlier-percentage division raises `ZeroDivisionError` when the column has
length zero (the statistics computed before it are NaN there and do not
raise); every path on which the source returns yields the total
`profileColumn`. Datetime and categorical branches contain no plain-Python
division and never raise. -/
def profileColumnE (d : ColData) : Except PyError ColProfile :=
  match d with
  | .numeric vals => do
      let _ ← outlierPercentageE
        (numericStats (nonNull vals) vals.length).outlier_count vals.length
      pure (profileColumn d)
  | _ => pure (profileColumn d)

/-! ## Quality rules -/

/-- Python `round` as used by the format specifier `.2f`: round to nearest,
ties to even. -/
def roundHE (q : ℚ) : ℤ :=
  let f := ⌊q⌋
  let r := q - f
  if r < 1/2 then f
  else if 1/2 < r then f + 1
  else if f % 2 = 0 then f else f + 1

/-- Value displayed for `q` by the format specifier `{q:.2f}` (two decimal
places). -/
def roundTo2 (q : ℚ) : ℚ :=
  (roundHE (q * 100) : ℚ) / 100

/-- Embedding of the rule dicts appended by `suggest_quality_rules`, by the
payload that determines each dict (see the header comment):
`not_null` shows the null percentage at two decimal places in its description;
`value_range` stores its bounds (as the mean and variance that define them);
`warn_zeros` shows the zero count in its description. -/
inductive QRule where
  | not_null (pct_shown : ℚ)
  | value_range (mean var : Option ℚ)
  | warn_zeros (zero_count : ℕ)
deriving DecidableEq, Repr

/-- Value of the `'rule'` key of the rule dict. -/
def QRule.ruleName : QRule → String
  | .not_null _ => "not_null"
  | .value_range _ _ => "value_range"
  | .warn_zeros _ => "warn_zeros"

/-- Severity as displayed by the source, `rule.get('severity', 'error')`: only
`warn_zeros` dicts carry a `'severity'` key (`'warning'`); the others default
to `'error'`. -/
def QRule.severity : QRule → String
  | .not_null _ => "error"
  | .value_range _ _ => "error"
  | .warn_zeros _ => "warning"

/-! ## The profiler object -/

/-- Embedding of the `DataProfiler` object: the dataframe (an ordered list of
named, typed columns) and the mutable `self.profile` dict. -/
structure DataProfiler where
  df : List (String × ColData)
  profile : List (String × ColProfile)
deriving DecidableEq, Repr

/-- Constructor `DataProfiler(df)`: `self.profile = {}`. -/
def DataProfiler.init (df : List (String × ColData)) : DataProfiler :=
  { df := df, profile := [] }

/-- Python dict assignment `d[k] = v` on an insertion-ordered dict: overwrite
in place when the key exists, append otherwise. -/
def upsert {β : Type} (l : List (String × β)) (k : String) (v : β) : List (String × β) :=
  match l with
  | [] => [(k, v)]
  | (k₀, v₀) :: t => if k₀ = k then (k, v) :: t else (k₀, v₀) :: upsert t k v

/-- Loop of `generate_profile`: `self.profile[column] = self._profile_column(column)`
over the dataframe's columns in order, starting from the current dict. -/
def profilePass (df : List (String × ColData)) (acc : List (String × ColProfile)) :
    List (String × ColProfile) :=
  df.foldl (fun a cd => upsert a cd.1 (profileColumn cd.2)) acc

/-- Embedding of `DataProfiler.generate_profile`: profiles every column of the
dataframe in order into `self.profile` (the method also returns that dict;
printing is not modelled). Total counterpart of `generate_profileE`, valid on
the runs where no column raises. -/
def generate_profile (p : DataProfiler) : DataProfiler :=
  { p with profile := profilePass p.df p.profile }

/-- Fallible counterpart of `profilePass`: an exception raised while
profiling a column propagates out of the loop, so later columns are not
profiled and no dict is returned to the caller. -/
def profilePassE (df : List (String × ColData)) (acc : List (String × ColProfile)) :
    Except PyError (List (String × ColProfile)) :=
  match df with
  | [] => Except.ok acc
  | cd :: t => do
      let pr ← profileColumnE cd.2
      profilePassE t (upsert acc cd.1 pr)

/-- Fallible embedding of `generate_profile`: either every column profiles and
the updated profiler state is returned, or the first raising column's
exception escapes and the caller receives no profile (and synthesizes no
rules). -/
def generate_profileE (p : DataProfiler) : Except PyError DataProfiler := do
  let prof ← profilePassE p.df p.profile
  pure { p with profile := prof }

/-- The zero count `(self.df[column] == 0).sum()` computed by the `warn_zeros`
branch: elementwise comparison with `0`, false on missing entries and on
non-numeric data. (A missing column would raise a `KeyError` in Python; the
rule synthesizer only reaches this for columns of the profile, which come from
the dataframe, so the `none` branch is unreachable in every modelled run.) -/
def zeroCount (df : List (String × ColData)) (c : String) : ℕ :=
  match df.lookup c with
  | some (ColData.numeric vs) => vs.countP (fun v => decide (v = some 0))
  | some _ => 0
  | none => 0

/-- First rule of the loop body of `suggest_quality_rules`: `not_null` when
the stored null percentage is below 5 (false for NaN, modelled `none`). -/
def notNullRules (np : Option ℚ) : List QRule :=
  match np with
  | some p => if p < 5 then [QRule.not_null (roundTo2 p)] else []
  | none => []

/-- Numeric-only rules of the loop body (`if 'min' in profile`): `value_range`
always, then `warn_zeros` when the column holds a zero. -/
def kindRules (df : List (String × ColData)) (c : String) (ks : KindStats) : List QRule :=
  match ks with
  | .numeric s _ =>
      [QRule.value_range s.mean s.var] ++
      (if 0 < zeroCount df c then [QRule.warn_zeros (zeroCount df c)] else [])
  | _ => []

/-- Rules collected for one column by the loop body of
`suggest_quality_rules`, in emission order. -/
def columnRules (df : List (String × ColData)) (c : String) (prof : ColProfile) :
    List QRule :=
  notNullRules prof.null_percentage ++ kindRules df c prof.kstats

/-- Embedding of `DataProfiler.suggest_quality_rules`: walks `self.profile` in
insertion order and keeps each column's rule list when it is nonempty. -/
def suggest_quality_rules (p : DataProfiler) : List (String × List QRule) :=
  p.profile.filterMap (fun cp =>
    let rs := columnRules p.df cp.1 cp.2
    if rs.isEmpty then none else some (cp.1, rs))

/-! ## Specification-side definitions (for comparison only) -/

/-- Modelled from the spec: the population standard deviation of a list of
values, named by the specification as the statistic the profile reports. Used
only to compare against the source's statistic. -/
noncomputable def popStdSpec (l : List ℚ) : ℝ :=
  Real.sqrt ((((l.map (fun x => (x - l.sum / l.length) ^ 2)).sum / l.length : ℚ)) : ℝ)

/-! ## Concrete columns used by the witnesses and counterexamples -/

/-- Column of 30 values with one null and one zero: 2% nulls rounds oddly but
here the null fraction is 1/30 ≈ 3.33% < 5%, and a zero value is present. -/
def colOneNullOneZero : List (Option ℚ) :=
  none :: (List.replicate 28 (some 1) ++ [some 0])

/-- One-column table holding `colOneNullOneZero`. -/
def dfOneNullOneZero : List (String × ColData) :=
  [("c", ColData.numeric colOneNullOneZero)]

/-- Column of 30 values with exactly one null and no zero: null fraction 1/30,
whose percentage 10/3 has no finite decimal representation. -/
def colThirtieth : List (Option ℚ) :=
  none :: List.replicate 29 (some 1)

/-- One-column table holding `colThirtieth`. -/
def dfThirtieth : List (String × ColData) :=
  [("c", ColData.numeric colThirtieth)]

/-- Column [0, 2, 4]: its variance with denominator `n-1` is 4 (so the
reported standard deviation is 2), while its population variance is 8/3. -/
def colEvens : List (Option ℚ) :=
  [some 0, some 2, some 4]

/-- Constant column [5,5,5,5,5] from the zero-variance scenario. -/
def colConst : List (Option ℚ) :=
  [some 5, some 5, some 5, some 5, some 5]

/-- Column [5,5,5,5,100] from the one-outlier scenario. -/
def colOneOutlier : List (Option ℚ) :=
  [some 5, some 5, some 5, some 5, some 100]

/-- First column of the profile-collision pair: multiset
{0,0,0, 4 ×10, 10, 14, 16}, with three zeros. -/
def colA : List (Option ℚ) :=
  [some 4, some 4, some 4, some 4, some 4, some 0, some 0, some 0,
   some 4, some 4, some 4, some 4, some 4, some 10, some 14, some 16]

/-- Second column of the profile-collision pair: multiset
{0,0,2, 4 ×10, 6, 16, 16}, with two zeros; both columns share every profile
statistic (same length, sum, sum of squares, order statistics at the quantile
grid, distinct-value count, first five values, and outlier count). -/
def colB : List (Option ℚ) :=
  [some 4, some 4, some 4, some 4, some 4, some 0, some 0, some 2,
   some 4, some 4, some 4, some 4, some 4, some 6, some 16, some 16]

/-- Two-column table holding the collision pair. -/
def dfAB : List (String × ColData) :=
  [("x", ColData.numeric colA), ("y", ColData.numeric colB)]

/-- Categorical column from the top-values scenario. -/
def colCat : List (Option String) :=
  [some "a", some "a", some "b", some "c", some "a", some "b"]

/-! ## Helper lemmas -/

/-- Missing and non-missing entries partition a column. -/
theorem nullCountL_add_nonNull_length {α : Type} (l : List (Option α)) :
    nullCountL l + (nonNull l).length = l.length := by
  induction l with
  | nil => rfl
  | cons a t ih =>
    cases a with
    | none =>
      have h1 : nullCountL (none :: t) = nullCountL t + 1 := by
        simp [nullCountL, List.countP_cons]
      have h2 : nonNull (α := α) (none :: t) = nonNull t := rfl
      rw [List.length_cons, h1, h2]
      omega
    | some x =>
      have h1 : nullCountL (some x :: t) = nullCountL t := by
        simp [nullCountL, List.countP_cons]
      have h2 : nonNull (some x :: t) = x :: nonNull t := rfl
      rw [List.length_cons, h1, h2, List.length_cons]
      omega

/-- On a nonempty column the null percentage is the exact rational
`(nullCount / length) * 100`. -/
theorem nullPct_of_pos {α : Type} {l : List (Option α)} (h : 0 < l.length) :
    nullPct l = some ((nullCountL l / l.length : ℚ) * 100) := by
  unfold nullPct
  rw [if_neg (by omega)]

/-- The profile's `null_count` is the column's null count. -/
theorem profileColumn_null_count (d : ColData) :
    (profileColumn d).null_count = d.nullCount := by
  cases d <;> rfl

/-- The profile's `null_percentage` on a nonempty column. -/
theorem profileColumn_null_percentage {d : ColData} (h : 0 < d.length) :
    (profileColumn d).null_percentage = some ((d.nullCount / d.length : ℚ) * 100) := by
  cases d <;>
    simp only [profileColumn, ColData.length, ColData.nullCount] at * <;>
    exact nullPct_of_pos h

/-! ## Claim C7 -/

/-- C7: for every column of a non-empty table, `nullCount` plus the observed
non-null count equals the column length, and the stored null percentage is
exactly `100 · nullCount / columnLength` (the source stores the fraction as a
percentage). -/
theorem C7_null_accounting (d : ColData) (h : 0 < d.length) :
    d.nullCount + d.nonNullCount = d.length ∧
    (profileColumn d).null_count = d.nullCount ∧
    (profileColumn d).null_percentage = some ((d.nullCount / d.length : ℚ) * 100) := by
  refine ⟨?_, profileColumn_null_count d, profileColumn_null_percentage h⟩
  cases d <;> exact nullCountL_add_nonNull_length _

/-- Witness for C7 at the concrete column `[some 1, none]`. -/
theorem C7_null_accounting_witness :
    0 < (ColData.numeric [some 1, none]).length ∧
    ((ColData.numeric [some 1, none]).nullCount + (ColData.numeric [some 1, none]).nonNullCount
        = (ColData.numeric [some 1, none]).length ∧
      (profileColumn (ColData.numeric [some 1, none])).null_count
        = (ColData.numeric [some 1, none]).nullCount ∧
      (profileColumn (ColData.numeric [some 1, none])).null_percentage
        = some (((ColData.numeric [some 1, none]).nullCount /
            (ColData.numeric [some 1, none]).length : ℚ) * 100)) :=
  ⟨by decide, C7_null_accounting _ (by decide)⟩

/-! ## Claim C5 -/

/-- On a nonempty column no division raises, and the fallible profiler agrees
with the total one. -/
theorem profileColumnE_ok {d : ColData} (h : 0 < d.length) :
    profileColumnE d = Except.ok (profileColumn d) := by
  cases d with
  | numeric vals =>
    simp only [profileColumnE, outlierPercentageE]
    rw [if_neg (by simpa [ColData.length] using Nat.pos_iff_ne_zero.mp h)]
    rfl
  | datetime vals => rfl
  | categorical vals => rfl

/-- When every column of the dataframe is nonempty, the fallible profiling
loop agrees with the total one. -/
theorem profilePassE_ok :
    ∀ (df : List (String × ColData)) (acc : List (String × ColProfile)),
      (∀ cd ∈ df, 0 < (cd.2 : ColData).length) →
      profilePassE df acc = Except.ok (profilePass df acc) := by
  intro df
  induction df with
  | nil => intro acc _; rfl
  | cons cd t ih =>
    intro acc hall
    show (do
        let pr ← profileColumnE cd.2
        profilePassE t (upsert acc cd.1 pr)) = _
    rw [profileColumnE_ok (hall cd (by simp))]
    show profilePassE t (upsert acc cd.1 (profileColumn cd.2)) = _
    exact ih _ (fun c hc => hall c (List.mem_cons_of_mem _ hc))

/-- When every column of the table is nonempty, `generate_profile` returns
normally with the total result. -/
theorem generate_profileE_ok (p : DataProfiler)
    (h : ∀ cd ∈ p.df, 0 < (cd.2 : ColData).length) :
    generate_profileE p = Except.ok (generate_profile p) := by
  show (do
      let prof ← profilePassE p.df p.profile
      pure { p with profile := prof }) = _
  rw [profilePassE_ok p.df p.profile h]
  rfl

/-- C5 (code behavior at the failing inputs): on a zero-column table
`generate_profile` returns normally with an empty profile and an empty rule
mapping - nothing fails; on a one-numeric-column zero-row table the
outlier-percentage division raises `ZeroDivisionError`, so profiling aborts
with that exception and produces no profile and no rules. Neither path raises
the `EmptyTableError` the claim requires: no such error exists in the
source. -/
theorem C5_no_empty_table_error :
    generate_profileE (DataProfiler.init []) = Except.ok (DataProfiler.init []) ∧
    suggest_quality_rules (DataProfiler.init []) = [] ∧
    profileColumnE (ColData.numeric []) = Except.error PyError.zeroDivisionError ∧
    generate_profileE (DataProfiler.init [("c", ColData.numeric [])]) =
      Except.error PyError.zeroDivisionError := by
  refine ⟨rfl, rfl, rfl, rfl⟩

/-! ## Claim C6 -/

/-- C6 (code behavior at the failing input): an entirely-null numeric column
profiles without failure, with `unique_count = 0`, `null_count = 3` and a 100%
null percentage - but the numeric block is present with every statistic NaN
(`none`), rather than being absent as the claim requires: `numeric?` returns
`some`. -/
theorem C6_all_null_numeric_column :
    profileColumn (ColData.numeric [none, none, none]) =
      { dtype := "float64", null_count := 3, null_percentage := some 100,
        unique_count := 0,
        kstats := KindStats.numeric
          { min := none, max := none, mean := none, median := none, var := none,
            q1 := none, q3 := none, outlier_count := 0, outlier_percentage := some 0 } [] } ∧
    (profileColumn (ColData.numeric [none, none, none])).numeric? ≠ none := by
  refine ⟨by decide, by decide⟩

/-! ## Claim C10 -/

/-- C10: rule synthesis on a profiler whose profile was never generated
returns the empty mapping (it does not fail); in general every emitted entry
belongs to a column of the stored profile and is nonempty, and every profile
column with a nonempty rule list appears in the output. -/
theorem C10_rules_cover_profile :
    (∀ df, suggest_quality_rules (DataProfiler.init df) = []) ∧
    (∀ (p : DataProfiler), ∀ e ∈ suggest_quality_rules p,
        e.1 ∈ p.profile.map Prod.fst ∧ e.2 ≠ []) ∧
    (∀ (p : DataProfiler) (c : String) (prof : ColProfile),
        (c, prof) ∈ p.profile → columnRules p.df c prof ≠ [] →
        c ∈ (suggest_quality_rules p).map Prod.fst) := by
  refine ⟨fun df => rfl, ?_, ?_⟩
  · intro p e he
    unfold suggest_quality_rules at he
    rcases List.mem_filterMap.mp he with ⟨cp, hcp, heq⟩
    cases hcr : columnRules p.df cp.1 cp.2 with
    | nil => rw [hcr] at heq; simp at heq
    | cons r rs =>
      rw [hcr] at heq
      simp only [List.isEmpty_cons, if_false, Option.some_inj, Bool.false_eq_true] at heq
      subst heq
      exact ⟨List.mem_map.mpr ⟨cp, hcp, rfl⟩, by simp⟩
  · intro p c prof hmem hne
    have hin : (c, columnRules p.df c prof) ∈ suggest_quality_rules p := by
      unfold suggest_quality_rules
      refine List.mem_filterMap.mpr ⟨(c, prof), hmem, ?_⟩
      rw [if_neg (by simpa using hne)]
    exact List.mem_map.mpr ⟨_, hin, rfl⟩

/-- Witness for C10 on a concrete profiler state with a generated profile. -/
theorem C10_rules_cover_profile_witness :
    (("c", profileColumn (ColData.numeric colOneNullOneZero)) ∈
        (generate_profile (DataProfiler.init dfOneNullOneZero)).profile ∧
      columnRules dfOneNullOneZero "c" (profileColumn (ColData.numeric colOneNullOneZero)) ≠ []) ∧
    "c" ∈ (suggest_quality_rules
        (generate_profile (DataProfiler.init dfOneNullOneZero))).map Prod.fst :=
  ⟨⟨by decide, by decide⟩,
    C10_rules_cover_profile.2.2 (generate_profile (DataProfiler.init dfOneNullOneZero)) "c"
      (profileColumn (ColData.numeric colOneNullOneZero)) (by decide) (by decide)⟩

/-! ## Claims C1, C2, C4 -/

/-- Characterization of the `not_null` rules among a column's rules: one is
present exactly when the stored null percentage is defined and below 5, and it
shows that percentage rounded to two decimals. -/
theorem mem_not_null_columnRules {df : List (String × ColData)} {c : String}
    {prof : ColProfile} {q : ℚ} :
    QRule.not_null q ∈ columnRules df c prof ↔
      ∃ p, prof.null_percentage = some p ∧ p < 5 ∧ q = roundTo2 p := by
  unfold columnRules
  rw [List.mem_append]
  constructor
  · rintro (h | h)
    · cases hp : prof.null_percentage with
      | none => rw [hp] at h; simp [notNullRules] at h
      | some p =>
        rw [hp] at h
        by_cases h5 : p < 5
        · simp only [notNullRules, if_pos h5, List.mem_singleton,
            QRule.not_null.injEq] at h
          exact ⟨p, rfl, h5, h⟩
        · simp [notNullRules, if_neg h5] at h
    · exfalso
      cases hk : prof.kstats with
      | numeric s sample =>
        rw [hk] at h
        unfold kindRules at h
        rcases List.mem_append.mp h with h1 | h1
        · simp at h1
        · split_ifs at h1 <;> simp at h1
      | datetime mn mx sample => rw [hk] at h; simp [kindRules] at h
      | categorical mc sample => rw [hk] at h; simp [kindRules] at h
  · rintro ⟨p, hp, h5, rfl⟩
    left
    rw [hp]
    simp [notNullRules, if_pos h5]

/-- C2 (amended): a `not_null` rule is emitted iff the null fraction is
strictly below 1/20, and its description shows the observed null percentage
rounded to two decimal places. -/
theorem C2_notnull_threshold (df : List (String × ColData)) (c : String)
    (d : ColData) (h : 0 < d.length) :
    ((∃ q, QRule.not_null q ∈ columnRules df c (profileColumn d)) ↔
        (d.nullCount : ℚ) / d.length < 1/20) ∧
    ∀ q, QRule.not_null q ∈ columnRules df c (profileColumn d) →
        q = roundTo2 ((d.nullCount / d.length : ℚ) * 100) := by
  have hp := profileColumn_null_percentage h
  constructor
  · constructor
    · rintro ⟨q, hq⟩
      rcases mem_not_null_columnRules.mp hq with ⟨p, hpp, h5, rfl⟩
      rw [hp] at hpp
      rcases Option.some_inj.mp hpp with rfl
      linarith
    · intro hlt
      exact ⟨roundTo2 ((d.nullCount / d.length : ℚ) * 100),
        mem_not_null_columnRules.mpr ⟨_, hp, by linarith, rfl⟩⟩
  · intro q hq
    rcases mem_not_null_columnRules.mp hq with ⟨p, hpp, h5, rfl⟩
    rw [hp] at hpp
    rcases Option.some_inj.mp hpp with rfl
    rfl

/-- Witness for C2 at a column with one null out of thirty values. -/
theorem C2_notnull_threshold_witness :
    0 < (ColData.numeric colThirtieth).length ∧
    (((∃ q, QRule.not_null q ∈
          columnRules dfThirtieth "c" (profileColumn (ColData.numeric colThirtieth))) ↔
        ((ColData.numeric colThirtieth).nullCount : ℚ) /
            (ColData.numeric colThirtieth).length < 1/20) ∧
      ∀ q, QRule.not_null q ∈
          columnRules dfThirtieth "c" (profileColumn (ColData.numeric colThirtieth)) →
        q = roundTo2 (((ColData.numeric colThirtieth).nullCount /
            (ColData.numeric colThirtieth).length : ℚ) * 100)) :=
  ⟨by decide, C2_notnull_threshold dfThirtieth "c" (ColData.numeric colThirtieth) (by decide)⟩

/-- C2 counterexample: for one null among thirty values the emitted
description shows the percentage 3.33, but the exact observed fraction is
1/30, whose percentage is 10/3 ≠ 333/100: the description does not embed the
exact observed null fraction. -/
theorem C2_exact_fraction_cex :
    columnRules dfThirtieth "c" (profileColumn (ColData.numeric colThirtieth)) =
      [QRule.not_null (333/100), QRule.value_range (some 1) (some 0)] ∧
    (ColData.numeric colThirtieth).nullCount = 1 ∧
    (ColData.numeric colThirtieth).length = 30 ∧
    (333/100 : ℚ) ≠ 100 * (1/30) := by
  exact ⟨by decide, by decide, by decide, by decide⟩

/-- Writing a fresh key appends it at the end, as in a Python dict. -/
theorem upsert_append {β : Type} {l : List (String × β)} {k : String}
    (h : k ∉ l.map Prod.fst) (v : β) : upsert l k v = l ++ [(k, v)] := by
  induction l with
  | nil => rfl
  | cons p t ih =>
    have hk : ¬ p.1 = k := fun he => h (by simp [he])
    obtain ⟨k₀, v₀⟩ := p
    simp only [upsert, if_neg hk, List.cons_append]
    rw [ih (fun hm => h (by simp [hm]))]

/-- Profiling a dataframe with fresh, distinct column names appends the
profiles in the dataframe's column order. -/
theorem map_fst_profilePass :
    ∀ (df : List (String × ColData)) (acc : List (String × ColProfile)),
      (∀ cd ∈ df, cd.1 ∉ acc.map Prod.fst) → (df.map Prod.fst).Nodup →
      (profilePass df acc).map Prod.fst = acc.map Prod.fst ++ df.map Prod.fst := by
  intro df
  induction df with
  | nil => intro acc _ _; simp [profilePass]
  | cons hd t ih =>
    intro acc hfresh hnd
    show (profilePass t (upsert acc hd.1 (profileColumn hd.2))).map Prod.fst = _
    rw [upsert_append (hfresh hd (by simp)) (profileColumn hd.2)]
    rw [ih (acc ++ [(hd.1, profileColumn hd.2)])
      (fun cd hcd => by
        have h1 : cd.1 ∉ acc.map Prod.fst :=
          hfresh cd (List.mem_cons_of_mem _ hcd)
        have h2 : cd.1 ≠ hd.1 := by
          intro he
          have := (List.nodup_cons.mp hnd).1
          exact this (he ▸ List.mem_map_of_mem Prod.fst hcd)
        simp [h1, h2])
      (List.nodup_cons.mp hnd).2]
    simp

/-- The rule mapping's keys are a sublist of the profile's keys, in order. -/
theorem suggest_keys_sublist (p : DataProfiler) :
    List.Sublist ((suggest_quality_rules p).map Prod.fst) (p.profile.map Prod.fst) := by
  unfold suggest_quality_rules
  generalize p.profile = l
  induction l with
  | nil => exact List.Sublist.refl _
  | cons cp t ih =>
    rw [List.filterMap_cons, List.map_cons]
    cases hr : (if (columnRules p.df cp.1 cp.2).isEmpty then none
        else some (cp.1, columnRules p.df cp.1 cp.2)) with
    | none => exact ih.cons _
    | some e =>
      split_ifs at hr with hemp
      obtain rfl : (cp.1, columnRules p.df cp.1 cp.2) = e := Option.some_inj.mp hr
      rw [List.map_cons]
      exact ih.cons₂ _

/-- C1: a numeric column with null fraction below 1/20 containing a zero
produces exactly the rule kinds `not_null`, `value_range`, `warn_zeros` with
severities error, error, warning, in that order; across columns the rule
mapping's keys follow the profile insertion order (a sublist of it), which
for a freshly profiled table with distinct column names is the table's column
order. -/
theorem C1_rule_order :
    (∀ (df : List (String × ColData)) (c : String) (vals : List (Option ℚ)),
        df.lookup c = some (ColData.numeric vals) →
        0 < vals.length →
        (nullCountL vals : ℚ) / vals.length < 1/20 →
        some 0 ∈ vals →
        (columnRules df c (profileColumn (ColData.numeric vals))).map
            (fun r => (r.ruleName, r.severity)) =
          [("not_null", "error"), ("value_range", "error"), ("warn_zeros", "warning")]) ∧
    (∀ p : DataProfiler,
        List.Sublist ((suggest_quality_rules p).map Prod.fst) (p.profile.map Prod.fst)) ∧
    (∀ df : List (String × ColData), (df.map Prod.fst).Nodup →
        List.Sublist
          ((suggest_quality_rules (generate_profile (DataProfiler.init df))).map Prod.fst)
          (df.map Prod.fst)) := by
  refine ⟨?_, ?_, ?_⟩
  · intro df c vals hdf hlen hfrac hz
    have hzc : zeroCount df c = vals.countP (fun v => decide (v = some 0)) := by
      unfold zeroCount
      rw [hdf]
    have hzpos : 0 < zeroCount df c := by
      rw [hzc]
      exact List.countP_pos_iff.mpr ⟨some 0, hz, by decide⟩
    have hpct : (profileColumn (ColData.numeric vals)).null_percentage =
        some ((nullCountL vals / vals.length : ℚ) * 100) :=
      profileColumn_null_percentage (d := ColData.numeric vals) hlen
    have h5 : (nullCountL vals / vals.length : ℚ) * 100 < 5 := by linarith
    show (columnRules df c (profileColumn (ColData.numeric vals))).map
        (fun r => (r.ruleName, r.severity)) = _
    unfold columnRules
    rw [hpct]
    have hk : (profileColumn (ColData.numeric vals)).kstats =
        KindStats.numeric (numericStats (nonNull vals) vals.length)
          ((nonNull vals).take 5) := rfl
    rw [hk]
    simp only [notNullRules, kindRules]
    rw [if_pos h5, if_pos hzpos]
    rfl
  · exact suggest_keys_sublist
  · intro df hnd
    have hkeys : (generate_profile (DataProfiler.init df)).profile.map Prod.fst =
        df.map Prod.fst := by
      show (profilePass df []).map Prod.fst = df.map Prod.fst
      rw [map_fst_profilePass df [] (fun cd _ => by simp) hnd]
      simp
    have h := suggest_keys_sublist (generate_profile (DataProfiler.init df))
    rwa [hkeys] at h

/-- Witness for C1 at the one-column table with one null and one zero among
thirty values. -/
theorem C1_rule_order_witness :
    (dfOneNullOneZero.lookup "c" = some (ColData.numeric colOneNullOneZero) ∧
      0 < colOneNullOneZero.length ∧
      (nullCountL colOneNullOneZero : ℚ) / colOneNullOneZero.length < 1/20 ∧
      some 0 ∈ colOneNullOneZero) ∧
    (columnRules dfOneNullOneZero "c" (profileColumn (ColData.numeric colOneNullOneZero))).map
        (fun r => (r.ruleName, r.severity)) =
      [("not_null", "error"), ("value_range", "error"), ("warn_zeros", "warning")] :=
  ⟨⟨by decide, by decide, by decide, by decide⟩,
    C1_rule_order.1 dfOneNullOneZero "c" colOneNullOneZero
      (by decide) (by decide) (by decide) (by decide)⟩

/-- C4: a numeric value is counted as an outlier exactly when it falls
strictly outside the fence `[Q1 - 1.5·IQR, Q3 + 1.5·IQR]`; the constant
column counts zero outliers and the constant-plus-100 column counts one. -/
theorem C4_iqr_outliers :
    (∀ (vals : List (Option ℚ)) (s : NumericStats) (a b : ℚ),
        (profileColumn (ColData.numeric vals)).numeric? = some s →
        s.q1 = some a → s.q3 = some b →
        s.outlier_count = (nonNull vals).countP
          (fun v => decide (v < a - 3/2 * (b - a) ∨ b + 3/2 * (b - a) < v))) ∧
    (profileColumn (ColData.numeric colConst)).outlierCount? = some 0 ∧
    (profileColumn (ColData.numeric colOneOutlier)).outlierCount? = some 1 := by
  refine ⟨?_, by decide, by decide⟩
  intro vals s a b hs hq1 hq3
  have hs2 : numericStats (nonNull vals) vals.length = s := by
    simpa [profileColumn, ColProfile.numeric?] using hs
  subst hs2
  simp only [numericStats] at hq1 hq3 ⊢
  rw [hq1, hq3]

/-- Witness for C4 at the column `[5,5,5,5,100]`. -/
theorem C4_iqr_outliers_witness :
    ((profileColumn (ColData.numeric colOneOutlier)).numeric? =
        some (numericStats (nonNull colOneOutlier) colOneOutlier.length) ∧
      (numericStats (nonNull colOneOutlier) colOneOutlier.length).q1 = some 5 ∧
      (numericStats (nonNull colOneOutlier) colOneOutlier.length).q3 = some 5) ∧
    (numericStats (nonNull colOneOutlier) colOneOutlier.length).outlier_count =
      (nonNull colOneOutlier).countP
        (fun v => decide (v < 5 - 3/2 * (5 - 5) ∨ 5 + 3/2 * (5 - 5) < v)) :=
  ⟨⟨by decide, by decide, by decide⟩,
    C4_iqr_outliers.1 colOneOutlier
      (numericStats (nonNull colOneOutlier) colOneOutlier.length) 5 5
      (by decide) (by decide) (by decide)⟩

/-! ## Claim C8 -/

/-- Looking up the key just written finds the written value. -/
theorem lookup_upsert_self {β : Type} (l : List (String × β)) (k : String) (v : β) :
    (upsert l k v).lookup k = some v := by
  induction l with
  | nil => simp [upsert, List.lookup_cons]
  | cons p t ih =>
    obtain ⟨k₀, v₀⟩ := p
    by_cases h : k₀ = k
    · subst h
      simp [upsert, List.lookup_cons]
    · simp only [upsert, if_neg h, List.lookup_cons, beq_false_of_ne (Ne.symm h)]
      exact ih

/-- Writing one key leaves the lookups of other keys unchanged. -/
theorem lookup_upsert_ne {β : Type} {c k : String} (h : c ≠ k)
    (l : List (String × β)) (v : β) :
    (upsert l k v).lookup c = l.lookup c := by
  induction l with
  | nil => simp [upsert, List.lookup_cons, beq_false_of_ne h]
  | cons p t ih =>
    obtain ⟨k₀, v₀⟩ := p
    by_cases hk : k₀ = k
    · subst hk
      simp [upsert, List.lookup_cons, beq_false_of_ne h]
    · simp only [upsert, if_neg hk, List.lookup_cons]
      by_cases hc : c = k₀
      · subst hc
        simp
      · simp [beq_false_of_ne hc, ih]

/-- Rewriting a key with the value it already holds is a no-op. -/
theorem upsert_of_lookup_eq {β : Type} {l : List (String × β)} {k : String} {v : β}
    (h : l.lookup k = some v) : upsert l k v = l := by
  induction l with
  | nil => simp at h
  | cons p t ih =>
    obtain ⟨k₀, v₀⟩ := p
    by_cases hk : k₀ = k
    · subst hk
      simp only [List.lookup_cons, beq_self_eq_true] at h
      obtain rfl := Option.some_inj.mp h
      simp [upsert]
    · simp only [List.lookup_cons, beq_false_of_ne (Ne.symm hk)] at h
      simp only [upsert, if_neg hk]
      rw [ih h]

/-- Columns absent from the dataframe are untouched by a profiling pass. -/
theorem lookup_profilePass_not_mem {df : List (String × ColData)} {c : String}
    (h : c ∉ df.map Prod.fst) (acc : List (String × ColProfile)) :
    (profilePass df acc).lookup c = acc.lookup c := by
  induction df generalizing acc with
  | nil => rfl
  | cons cd t ih =>
    have hc : c ≠ cd.1 := by
      intro he
      exact h (by simp [he])
    have ht : c ∉ t.map Prod.fst := fun hm => h (by simp [hm])
    show (profilePass t (upsert acc cd.1 (profileColumn cd.2))).lookup c = _
    rw [ih ht, lookup_upsert_ne hc]

/-- After one profiling pass over a dataframe with distinct column names,
every column's profile is stored. -/
theorem lookup_profilePass_mem {df : List (String × ColData)}
    (hnd : (df.map Prod.fst).Nodup) :
    ∀ cd ∈ df, ∀ acc, (profilePass df acc).lookup cd.1 = some (profileColumn cd.2) := by
  induction df with
  | nil => intro cd h; simp at h
  | cons hd t ih =>
    intro cd hcd acc
    rcases List.mem_cons.mp hcd with rfl | hmem
    · have hnotin : cd.1 ∉ t.map Prod.fst := by
        simpa using (List.nodup_cons.mp hnd).1
      show (profilePass t (upsert acc cd.1 (profileColumn cd.2))).lookup cd.1 = _
      rw [lookup_profilePass_not_mem hnotin, lookup_upsert_self]
    · exact ih (List.nodup_cons.mp hnd).2 cd hmem _

/-- A profiling pass that rewrites every stored value with itself is the
identity. -/
theorem profilePass_stable {df : List (String × ColData)} :
    ∀ acc, (∀ cd ∈ df, acc.lookup cd.1 = some (profileColumn cd.2)) →
      profilePass df acc = acc := by
  induction df with
  | nil => intro acc _; rfl
  | cons hd t ih =>
    intro acc hall
    show profilePass t (upsert acc hd.1 (profileColumn hd.2)) = acc
    rw [upsert_of_lookup_eq (hall hd (by simp))]
    exact ih acc (fun cd hcd => hall cd (List.mem_cons_of_mem _ hcd))

/-- C8 (amended, deterministic and idempotent part): on a table with distinct
column names, running `generate_profile` a second time changes nothing - the
profiler state, the profile and the synthesized rule sequence are identical. -/
theorem C8_idempotence (df : List (String × ColData))
    (hnd : (df.map Prod.fst).Nodup) :
    generate_profile (generate_profile (DataProfiler.init df)) =
      generate_profile (DataProfiler.init df) ∧
    suggest_quality_rules (generate_profile (generate_profile (DataProfiler.init df))) =
      suggest_quality_rules (generate_profile (DataProfiler.init df)) := by
  have key : profilePass df (profilePass df []) = profilePass df [] :=
    profilePass_stable _ (fun cd hcd => lookup_profilePass_mem hnd cd hcd [])
  have h1 : generate_profile (generate_profile (DataProfiler.init df)) =
      generate_profile (DataProfiler.init df) := by
    show ({ df := df, profile := profilePass df (profilePass df []) } : DataProfiler) =
      { df := df, profile := profilePass df [] }
    rw [key]
  exact ⟨h1, congrArg suggest_quality_rules h1⟩

/-- Witness for C8 on a concrete two-column table. -/
theorem C8_idempotence_witness :
    (([("a", ColData.numeric [some 1, some 2]),
        ("b", ColData.categorical [some "u"])].map Prod.fst).Nodup) ∧
    (generate_profile (generate_profile (DataProfiler.init
        [("a", ColData.numeric [some 1, some 2]), ("b", ColData.categorical [some "u"])])) =
      generate_profile (DataProfiler.init
        [("a", ColData.numeric [some 1, some 2]), ("b", ColData.categorical [some "u"])]) ∧
    suggest_quality_rules (generate_profile (generate_profile (DataProfiler.init
        [("a", ColData.numeric [some 1, some 2]), ("b", ColData.categorical [some "u"])]))) =
      suggest_quality_rules (generate_profile (DataProfiler.init
        [("a", ColData.numeric [some 1, some 2]), ("b", ColData.categorical [some "u"])]))) :=
  ⟨by decide,
    C8_idempotence
      [("a", ColData.numeric [some 1, some 2]), ("b", ColData.categorical [some "u"])]
      (by decide)⟩

set_option maxHeartbeats 1000000 in
/-- C8 counterexample to "the rule set is a function of the ColumnProfile
alone": the columns `colA` and `colB` have byte-identical profiles, yet their
rule sets differ - `warn_zeros` re-reads the underlying data and embeds the
zero count (3 versus 2) in its description. -/
theorem C8_rules_not_function_of_profile_cex :
    profileColumn (ColData.numeric colA) = profileColumn (ColData.numeric colB) ∧
    columnRules dfAB "x" (profileColumn (ColData.numeric colA)) ≠
      columnRules dfAB "y" (profileColumn (ColData.numeric colB)) := by
  have hA : profileColumn (ColData.numeric colA) =
      ⟨"float64", 0, some 0, 5,
        .numeric
          ⟨some 0, some 16, some 5, some 4, some (104/5), some 4, some 4, 6, some (75/2)⟩
          [4, 4, 4, 4, 4]⟩ := by decide
  have hB : profileColumn (ColData.numeric colB) =
      ⟨"float64", 0, some 0, 5,
        .numeric
          ⟨some 0, some 16, some 5, some 4, some (104/5), some 4, some 4, 6, some (75/2)⟩
          [4, 4, 4, 4, 4]⟩ := by decide
  refine ⟨hA.trans hB.symm, ?_⟩
  rw [hA, hB]
  decide

/-! ## Claim C3 -/

/-- C3 (amended): for a numeric column with at least two non-null values, the
stored variance is the sum of squared deviations from the mean divided by
`n - 1` (so the reported standard deviation is the square root of that,
the sample standard deviation), and the suggested bounds are exactly
`mean ± 3·stddev`, computed from mean and stddev alone. -/
theorem C3_sigma_bounds (vals : List (Option ℚ))
    (h2 : 2 ≤ (nonNull vals).length) :
    ∃ s, (profileColumn (ColData.numeric vals)).numeric? = some s ∧
      s.mean = some ((nonNull vals).sum / (nonNull vals).length) ∧
      s.var = some (((nonNull vals).map
          (fun x => (x - (nonNull vals).sum / (nonNull vals).length) ^ 2)).sum /
        (((nonNull vals).length : ℚ) - 1)) ∧
      NumericStats.std s = some (Real.sqrt ((((nonNull vals).map
          (fun x => (x - (nonNull vals).sum / (nonNull vals).length) ^ 2)).sum /
        (((nonNull vals).length : ℚ) - 1) : ℚ) : ℝ)) ∧
      NumericStats.suggested_min s = some
        ((((nonNull vals).sum / (nonNull vals).length : ℚ) : ℝ) -
          3 * Real.sqrt ((((nonNull vals).map
            (fun x => (x - (nonNull vals).sum / (nonNull vals).length) ^ 2)).sum /
          (((nonNull vals).length : ℚ) - 1) : ℚ) : ℝ)) ∧
      NumericStats.suggested_max s = some
        ((((nonNull vals).sum / (nonNull vals).length : ℚ) : ℝ) +
          3 * Real.sqrt ((((nonNull vals).map
            (fun x => (x - (nonNull vals).sum / (nonNull vals).length) ^ 2)).sum /
          (((nonNull vals).length : ℚ) - 1) : ℚ) : ℝ)) := by
  have hm : meanQ? (nonNull vals) = some ((nonNull vals).sum / (nonNull vals).length) := by
    unfold meanQ?
    rw [if_neg (by omega)]
  have hv : sampleVar? (nonNull vals) = some (((nonNull vals).map
      (fun x => (x - (nonNull vals).sum / (nonNull vals).length) ^ 2)).sum /
        (((nonNull vals).length : ℚ) - 1)) := by
    unfold sampleVar?
    rw [if_neg (by omega)]
  refine ⟨numericStats (nonNull vals) vals.length, rfl, ?_, ?_, ?_, ?_, ?_⟩
  · simpa only [numericStats] using hm
  · simpa only [numericStats] using hv
  · simp only [NumericStats.std, numericStats]
    rw [hv]
    rfl
  · simp only [NumericStats.suggested_min, numericStats]
    rw [hm, hv]
  · simp only [NumericStats.suggested_max, numericStats]
    rw [hm, hv]

/-- Witness for C3 at the column [0, 2, 4]. -/
theorem C3_sigma_bounds_witness :
    2 ≤ (nonNull colEvens).length ∧
    (∃ s, (profileColumn (ColData.numeric colEvens)).numeric? = some s ∧
      s.mean = some ((nonNull colEvens).sum / (nonNull colEvens).length) ∧
      s.var = some (((nonNull colEvens).map
          (fun x => (x - (nonNull colEvens).sum / (nonNull colEvens).length) ^ 2)).sum /
        (((nonNull colEvens).length : ℚ) - 1)) ∧
      NumericStats.std s = some (Real.sqrt ((((nonNull colEvens).map
          (fun x => (x - (nonNull colEvens).sum / (nonNull colEvens).length) ^ 2)).sum /
        (((nonNull colEvens).length : ℚ) - 1) : ℚ) : ℝ)) ∧
      NumericStats.suggested_min s = some
        ((((nonNull colEvens).sum / (nonNull colEvens).length : ℚ) : ℝ) -
          3 * Real.sqrt ((((nonNull colEvens).map
            (fun x => (x - (nonNull colEvens).sum / (nonNull colEvens).length) ^ 2)).sum /
          (((nonNull colEvens).length : ℚ) - 1) : ℚ) : ℝ)) ∧
      NumericStats.suggested_max s = some
        ((((nonNull colEvens).sum / (nonNull colEvens).length : ℚ) : ℝ) +
          3 * Real.sqrt ((((nonNull colEvens).map
            (fun x => (x - (nonNull colEvens).sum / (nonNull colEvens).length) ^ 2)).sum /
          (((nonNull colEvens).length : ℚ) - 1) : ℚ) : ℝ))) :=
  ⟨by decide, C3_sigma_bounds colEvens (by decide)⟩

/-- C3 counterexample: on the column [0, 2, 4] the source reports the
standard deviation √4 = 2 (sample standard deviation, denominator `n-1`),
which differs from the population standard deviation √(8/3) the claim
asserts. -/
theorem C3_population_std_cex :
    (profileColumn (ColData.numeric colEvens)).numeric?.map NumericStats.std =
      some (some (Real.sqrt ((4 : ℚ) : ℝ))) ∧
    popStdSpec (nonNull colEvens) = Real.sqrt ((8/3 : ℚ) : ℝ) ∧
    Real.sqrt ((4 : ℚ) : ℝ) ≠ Real.sqrt ((8/3 : ℚ) : ℝ) := by
  refine ⟨?_, ?_, ?_⟩
  · have hs : (profileColumn (ColData.numeric colEvens)).numeric? =
        some ⟨some 0, some 4, some 2, some 2, some 4, some 1, some 3, 0, some 0⟩ := by
      decide
    rw [hs]
    rfl
  · have hq : (((nonNull colEvens).map
        (fun x => (x - (nonNull colEvens).sum / (nonNull colEvens).length) ^ 2)).sum /
          ((nonNull colEvens).length : ℚ)) = 8/3 := by decide
    unfold popStdSpec
    rw [hq]
  · have h4 : ((4 : ℚ) : ℝ) = (2 : ℝ) ^ 2 := by norm_num
    have hs4 : Real.sqrt ((4 : ℚ) : ℝ) = 2 := by
      rw [h4, Real.sqrt_sq (by norm_num : (0:ℝ) ≤ 2)]
    intro h
    have h83 : ((8/3 : ℚ) : ℝ) = 8/3 := by norm_num
    have hsq : Real.sqrt ((8/3 : ℚ) : ℝ) ^ 2 = ((8/3 : ℚ) : ℝ) :=
      Real.sq_sqrt (by rw [h83]; norm_num)
    rw [← h, hs4] at hsq
    rw [h83] at hsq
    norm_num at hsq

/-! ## Claim C9 -/

/-- Membership in the deduplication recursion: a value appears exactly when it
occurs in the remaining list and was not seen before. -/
theorem mem_firstOccsAux :
    ∀ (l seen : List String) (x : String),
      x ∈ firstOccsAux seen l ↔ x ∈ l ∧ x ∉ seen := by
  intro l
  induction l with
  | nil => intro seen x; simp [firstOccsAux]
  | cons v t ih =>
    intro seen x
    by_cases hv : v ∈ seen
    · rw [firstOccsAux, if_pos hv, ih]
      simp only [List.mem_cons]
      constructor
      · rintro ⟨hx, hns⟩
        exact ⟨Or.inr hx, hns⟩
      · rintro ⟨hx | hx, hns⟩
        · subst hx; exact absurd hv hns
        · exact ⟨hx, hns⟩
    · rw [firstOccsAux, if_neg hv]
      simp only [List.mem_cons, ih]
      constructor
      · rintro (rfl | ⟨hx, hns⟩)
        · exact ⟨Or.inl rfl, hv⟩
        · exact ⟨Or.inr hx, fun h => hns (Or.inr h)⟩
      · rintro ⟨rfl | hx, hns⟩
        · exact Or.inl rfl
        · by_cases hxv : x = v
          · exact Or.inl hxv
          · exact Or.inr ⟨hx, fun h => h.elim hxv hns⟩

/-- The first-occurrence list has the same members as the original list. -/
theorem mem_firstOccs {l : List String} {x : String} :
    x ∈ firstOccs l ↔ x ∈ l := by
  simp [firstOccs, mem_firstOccsAux]

/-- Entries of the grouped count list are exactly the occurring values with
their true occurrence counts. -/
theorem mem_firstOccCounts {l : List String} {v : String} {c : ℕ} :
    (v, c) ∈ firstOccCounts l ↔ v ∈ l ∧ c = l.count v := by
  unfold firstOccCounts
  rw [List.mem_map]
  constructor
  · rintro ⟨w, hw, he⟩
    obtain ⟨rfl, rfl⟩ := Prod.mk.injEq .. ▸ he
    exact ⟨mem_firstOccs.mp hw, rfl⟩
  · rintro ⟨hv, rfl⟩
    exact ⟨v, mem_firstOccs.mpr hv, rfl⟩

/-- C9: the profile's top values come from the grouped occurrence counts of
the non-null values (conjunct 1: counts are the true occurrence counts),
stably sorted by descending count - the sorted tagged list is a permutation
of the position-tagged groups, sorted under `cmpCount`, whose tie case orders
equal counts by group position, that is, by first occurrence (conjunct 2);
consequently the emitted top-N list is sorted by descending count (conjunct
3), every omitted count is at most every emitted one (conjunct 4), the
categorical profile stores the top 5 (conjunct 5), and the worked example
gives [("a",3), ("b",2)] (conjunct 6). -/
theorem C9_top_values :
    (∀ (vals : List (Option String)) (v : String) (c : ℕ),
        (v, c) ∈ firstOccCounts (nonNull vals) ↔
          v ∈ nonNull vals ∧ c = (nonNull vals).count v) ∧
    (∀ vals : List (Option String),
        (sortCounts (firstOccCounts (nonNull vals))).Perm
            (firstOccCounts (nonNull vals)).enum ∧
          List.Sorted cmpCount (sortCounts (firstOccCounts (nonNull vals))) ∧
          ∀ n, mostCommon n (nonNull vals) =
            ((sortCounts (firstOccCounts (nonNull vals))).map Prod.snd).take n) ∧
    (∀ (vals : List (Option String)) (n : ℕ),
        List.Sorted (fun p q : String × ℕ => q.2 ≤ p.2) (mostCommon n (nonNull vals))) ∧
    (∀ (vals : List (Option String)) (n : ℕ),
        ∀ p ∈ mostCommon n (nonNull vals),
          ∀ q ∈ (valueCounts (nonNull vals)).drop n, q.2 ≤ p.2) ∧
    (∀ vals : List (Option String),
        (profileColumn (ColData.categorical vals)).kstats =
          KindStats.categorical (mostCommon 5 (nonNull vals)) ((nonNull vals).take 5)) ∧
    mostCommon 2 (nonNull colCat) = [("a", 3), ("b", 2)] := by
  have hsorted : ∀ l : List String,
      List.Sorted (fun p q : String × ℕ => q.2 ≤ p.2) (valueCounts l) := by
    intro l
    have h := List.sorted_insertionSort cmpCount (firstOccCounts l).enum
    exact List.Pairwise.map Prod.snd
      (fun a b hab => by
        rcases hab with hlt | ⟨heq, _⟩
        · exact le_of_lt hlt
        · exact le_of_eq heq.symm) h
  refine ⟨fun vals v c => mem_firstOccCounts, ?_, ?_, ?_, fun vals => rfl, by decide⟩
  · intro vals
    exact ⟨List.perm_insertionSort cmpCount _,
      List.sorted_insertionSort cmpCount _, fun n => rfl⟩
  · intro vals n
    exact (hsorted (nonNull vals)).sublist ((valueCounts (nonNull vals)).take_sublist n)
  · intro vals n p hp q hq
    have h := hsorted (nonNull vals)
    rw [← List.take_append_drop n (valueCounts (nonNull vals))] at h
    exact (List.pairwise_append.mp h).2.2 p hp q hq

/-- Witness for C9, discharging the membership hypotheses of the top-N bound
at the concrete example: ("a",3) is emitted at topN = 2, ("c",1) is dropped,
and 1 ≤ 3. -/
theorem C9_top_values_witness :
    (("a", 3) ∈ mostCommon 2 (nonNull colCat) ∧
      ("c", 1) ∈ (valueCounts (nonNull colCat)).drop 2) ∧
    (("c", 1) : String × ℕ).2 ≤ (("a", 3) : String × ℕ).2 :=
  ⟨⟨by decide, by decide⟩,
    C9_top_values.2.2.2.1 colCat 2 ("a", 3) (by decide) ("c", 1) (by decide)⟩

end TaxiProfiler
